import Mathlib

/-
  Verification of the HealthHub authentication and RBAC core against its
  natural-language specification.

  The Go source is shallowly embedded: times are integer Unix seconds, the
  gorm-backed store is an explicit record of row lists, and the HMAC
  signature of a JWT is modelled by recording the signing key and algorithm
  family inside the token value (a signature verifies exactly when the
  recorded key equals the validator's key and the algorithm family is HMAC).
-/

deriving instance DecidableEq for Except

namespace HealthHub

/-- JWT claims structure (src/internal/auth/jwt.go, type `Claims`):
`user_id`, `email`, `roles` plus the registered claims the code sets
(`exp`, `iat`, `nbf`, `iss`, `sub`). -/
structure Claims where
  userID : String
  email : String
  roles : List String
  expiresAt : Int
  issuedAt : Int
  notBefore : Int
  issuer : String
  subject : String
deriving DecidableEq

/-- Signing algorithm family, as distinguished by the keyfunc in
`ValidateToken`: it accepts any `*jwt.SigningMethodHMAC` and rejects
everything else (algorithm-confusion defense). -/
inductive SigAlg
  | hmac
  | nonHmac
deriving DecidableEq

/-- A structurally valid compact JWT: header algorithm, payload claims, and
the key its signature was produced with. -/
structure SignedToken where
  alg : SigAlg
  claims : Claims
  sigKey : String
deriving DecidableEq

/-- A presented token string: either not parseable as a JWT at all, or a
structurally valid signed token. -/
inductive Token
  | malformed
  | signed (st : SignedToken)
deriving DecidableEq

/-- Token validation errors, mirroring the golang-jwt v5 error kinds the
code can surface: `ErrTokenMalformed`, signature/algorithm failure,
`ErrTokenExpired`, `ErrTokenNotValidYet`. -/
inductive TokenError
  | malformedToken
  | badSignature
  | expired
  | notYetValid
deriving DecidableEq

/-- src/internal/auth/jwt.go, type `TokenManager`. -/
structure TokenManager where
  secretKey : String
  issuer : String
deriving DecidableEq

/-- The fixed validity window of `GenerateToken`: 24 hours, in seconds. -/
def tokenValidityWindow : Int := 24 * 60 * 60

/-- src/internal/auth/jwt.go, `TokenManager.GenerateToken`. The Go code
reads the ambient clock; here the issuance instant `now` is explicit.
HMAC signing cannot fail, so the `error` result of the Go function is
dropped. Returns the signed token and the expiration time. -/
def TokenManager.GenerateToken (tm : TokenManager) (userID email : String)
    (roles : List String) (now : Int) : Token × Int :=
  let expirationTime := now + tokenValidityWindow
  (Token.signed
    { alg := SigAlg.hmac
      claims :=
        { userID := userID
          email := email
          roles := roles
          expiresAt := expirationTime
          issuedAt := now
          notBefore := now
          issuer := tm.issuer
          subject := userID }
      sigKey := tm.secretKey },
   expirationTime)

/-- src/internal/auth/jwt.go, `TokenManager.ValidateToken`, following the
golang-jwt v5 `ParseWithClaims` pipeline: parse (malformed), keyfunc
algorithm check and signature verification (bad signature), then claim
validation — `exp` fails when `now` is not before the expiry, `nbf` fails
when `now` is before the not-before instant (`iat` is not validated by
default in v5). -/
def TokenManager.ValidateToken (tm : TokenManager) (t : Token) (now : Int) :
    Except TokenError Claims :=
  match t with
  | Token.malformed => Except.error TokenError.malformedToken
  | Token.signed st =>
    if st.alg ≠ SigAlg.hmac then Except.error TokenError.badSignature
    else if st.sigKey ≠ tm.secretKey then Except.error TokenError.badSignature
    else if st.claims.expiresAt ≤ now then Except.error TokenError.expired
    else if now < st.claims.notBefore then Except.error TokenError.notYetValid
    else Except.ok st.claims

/-- src/internal/auth/jwt.go, `TokenManager.RefreshToken`: validate, then
generate a new token from the embedded claims. -/
def TokenManager.RefreshToken (tm : TokenManager) (t : Token) (now : Int) :
    Except TokenError (Token × Int) :=
  match tm.ValidateToken t now with
  | Except.error e => Except.error e
  | Except.ok claims => Except.ok (tm.GenerateToken claims.userID claims.email claims.roles now)

/-- src/internal/auth/jwt.go, `Claims.HasRole`. -/
def Claims.HasRole (c : Claims) (role : String) : Bool :=
  c.roles.any (fun userRole => userRole == role)

/-- src/internal/auth/jwt.go, `Claims.HasAnyRole`. -/
def Claims.HasAnyRole (c : Claims) (roles : List String) : Bool :=
  roles.any (fun role => c.HasRole role)

/-- The `error` and `code` fields of the JSON body a middleware denial
writes. -/
structure ErrorBody where
  error : String
  code : String
deriving DecidableEq

/-- An HTTP response rendered by a guard denial: status plus body. -/
structure Response where
  status : Nat
  body : ErrorBody
deriving DecidableEq

/-- Outcome of one middleware layer: abort with a response, or pass the
request on (`c.Next()`). -/
inductive GuardOutcome
  | abortWith (r : Response)
  | next
deriving DecidableEq

/-- The `Authorization` header of an inbound request, as classified by the
middleware: absent, present without the bearer marker, or a bearer token. -/
inductive AuthHeader
  | absent
  | notBearer
  | bearer (t : Token)
deriving DecidableEq

/-- src/internal/auth (middleware file), `AuthMiddleware`: returns the guard
outcome together with the claims stored into the request context on
success. -/
def AuthMiddleware (tm : TokenManager) (h : AuthHeader) (now : Int) :
    GuardOutcome × Option Claims :=
  match h with
  | AuthHeader.absent =>
    (GuardOutcome.abortWith ⟨401, ⟨"Authorization header required", "MISSING_AUTH_HEADER"⟩⟩, none)
  | AuthHeader.notBearer =>
    (GuardOutcome.abortWith ⟨401, ⟨"Bearer token required", "INVALID_AUTH_FORMAT"⟩⟩, none)
  | AuthHeader.bearer t =>
    match tm.ValidateToken t now with
    | Except.error _ =>
      (GuardOutcome.abortWith ⟨401, ⟨"Invalid or expired token", "INVALID_TOKEN"⟩⟩, none)
    | Except.ok claims => (GuardOutcome.next, some claims)

/-- src/internal/auth (middleware file), `RequireRole`: the context either
carries validated claims or not (the Go type-assertion failure branch
cannot arise in this typed model). -/
def RequireRole (allowedRoles : List String) (ctxClaims : Option Claims) : GuardOutcome :=
  match ctxClaims with
  | none => GuardOutcome.abortWith ⟨403, ⟨"User authentication required", "NOT_AUTHENTICATED"⟩⟩
  | some userClaims =>
    if userClaims.HasAnyRole allowedRoles then GuardOutcome.next
    else GuardOutcome.abortWith ⟨403, ⟨"Insufficient permissions", "INSUFFICIENT_PERMISSIONS"⟩⟩

/-- The hard-coded role → resource → actions matrix inside
`checkPermission` (middleware file). -/
def permissionsMatrix : List (String × List (String × List String)) :=
  [("admin",
     [("patients", ["create", "read", "update", "delete"]),
      ("observations", ["create", "read", "update", "delete"]),
      ("users", ["create", "read", "update", "delete"])]),
   ("practitioner",
     [("patients", ["create", "read", "update"]),
      ("observations", ["create", "read", "update"])]),
   ("nurse",
     [("patients", ["read"]),
      ("observations", ["read"])]),
   ("lab-tech",
     [("patients", ["read"]),
      ("observations", ["create", "read", "update"])])]

/-- Go map lookup over an association list. -/
def lookupAssoc {α : Type} (m : List (String × α)) (k : String) : Option α :=
  match m.find? (fun kv => kv.fst == k) with
  | some kv => some kv.snd
  | none => none

/-- src/internal/auth (middleware file), `checkPermission`: scans the
caller's roles and returns true on the first role whose matrix entry allows
the action on the resource. -/
def checkPermission (userRoles : List String) (resource action : String) : Bool :=
  userRoles.any (fun role =>
    match lookupAssoc permissionsMatrix role with
    | some resourcePerms =>
      match lookupAssoc resourcePerms resource with
      | some actions => actions.any (fun allowedAction => allowedAction == action)
      | none => false
    | none => false)

/-- src/internal/auth (middleware file), `RequirePermission`: evaluates
`checkPermission` against the token role snapshot in the context. -/
def RequirePermission (resource action : String) (ctxClaims : Option Claims) : GuardOutcome :=
  match ctxClaims with
  | none => GuardOutcome.abortWith ⟨403, ⟨"User authentication required", "NOT_AUTHENTICATED"⟩⟩
  | some claims =>
    if checkPermission claims.roles resource action then GuardOutcome.next
    else GuardOutcome.abortWith ⟨403, ⟨"Insufficient permissions", "INSUFFICIENT_PERMISSIONS"⟩⟩

/-- Model of a bcrypt hash (golang.org/x/crypto/bcrypt): the hash is a
one-way image of the secret at a fixed cost; comparison recomputes and
matches. We record the hashed secret abstractly so equality of secrets
models hash comparison. -/
structure BcryptHash where
  cost : Nat
  secret : String
deriving DecidableEq

/-- Result of `bcrypt.CompareHashAndPassword`: `nil` on a match, the
`ErrMismatchedHashAndPassword` error value on a mismatch. The Go function
returns its failure as an error value and never panics; totality of this
function reflects that. -/
inductive BcryptResult
  | ok
  | mismatchedHashAndPassword
deriving DecidableEq

/-- golang.org/x/crypto/bcrypt, `CompareHashAndPassword`. -/
def compareHashAndPassword (hashed : BcryptHash) (password : String) : BcryptResult :=
  if hashed.secret == password then BcryptResult.ok
  else BcryptResult.mismatchedHashAndPassword

/-- A `users` table row (src/unnamed/part_006, type `User`), restricted to
the fields the verified operations read: id, email, active flag, stored
password hash. -/
structure UserRow where
  id : String
  email : String
  active : Bool
  password : BcryptHash
deriving DecidableEq

/-- src/unnamed/part_006, `User.CheckPassword`: delegates to
`bcrypt.CompareHashAndPassword` on the stored hash. -/
def UserRow.CheckPassword (u : UserRow) (password : String) : BcryptResult :=
  compareHashAndPassword u.password password

/-- A `roles` table row (src/unnamed/part_006, type `Role`). -/
structure RoleRow where
  id : String
  name : String
  description : String
deriving DecidableEq

/-- A `permissions` table row (src/unnamed/part_006, type `Permission`). -/
structure PermissionRow where
  id : String
  name : String
  description : String
  resource : String
  action : String
deriving DecidableEq

/-- A `user_roles` junction row (src/unnamed/part_006, type `UserRole`). -/
structure UserRoleRow where
  userID : String
  roleID : String
  grantedBy : String
  grantedAt : Int
deriving DecidableEq

/-- A `role_permissions` junction row (src/unnamed/part_006, type
`RolePermission`). -/
structure RolePermissionRow where
  roleID : String
  permissionID : String
deriving DecidableEq

/-- The gorm-backed store the `RBACService` operates on: the five tables of
the auth schema, plus a counter modelling the uuid generator of the
`BeforeCreate` hooks (fresh ids are `uuid-<n>`). -/
structure DB where
  users : List UserRow
  roles : List RoleRow
  permissions : List PermissionRow
  userRoles : List UserRoleRow
  rolePermissions : List RolePermissionRow
  nextID : Nat
deriving DecidableEq

/-- Fresh id produced by the uuid generator, modelled as a counter. -/
def genID (n : Nat) : String := "uuid-" ++ toString n

/-- Registry error classification. The Go code returns formatted error
strings; the spec taxonomy classifies them: "... already exists" and
"user already has this role" are `Conflict`, "... not found" is
`NotFound`. Plain storage failures cannot occur in this model. -/
inductive RegErr
  | conflict
  | notFound
deriving DecidableEq

/-- src/internal/auth/rbac.go, `RBACService.CreateRole`. The permission
association uses a gorm `Find` with an `IN` clause, which returns the
subset of ids that resolve and reports no error for missing ids; the role
row is created before the association and is not rolled back. -/
def DB.CreateRole (st : DB) (name description : String)
    (permissionIDs : List String) : Except RegErr (RoleRow × DB) :=
  if st.roles.any (fun r => r.name == name) then Except.error RegErr.conflict
  else
    let role : RoleRow := { id := genID st.nextID, name := name, description := description }
    let st1 : DB := { st with roles := st.roles ++ [role], nextID := st.nextID + 1 }
    if permissionIDs.isEmpty then Except.ok (role, st1)
    else
      let found := st1.permissions.filter (fun p => permissionIDs.contains p.id)
      let links := found.map (fun p => RolePermissionRow.mk role.id p.id)
      Except.ok (role, { st1 with rolePermissions := st1.rolePermissions ++ links })

/-- src/internal/auth/rbac.go, `RBACService.AssignRoleToUser`: user lookup,
role lookup, duplicate-assignment check, then insert of one row. -/
def DB.AssignRoleToUser (st : DB) (userID roleID grantedBy : String) (now : Int) :
    Except RegErr DB :=
  if ¬ st.users.any (fun u => u.id == userID) then Except.error RegErr.notFound
  else if ¬ st.roles.any (fun r => r.id == roleID) then Except.error RegErr.notFound
  else if st.userRoles.any (fun a => a.userID == userID && a.roleID == roleID) then
    Except.error RegErr.conflict
  else
    Except.ok { st with userRoles := st.userRoles ++
      [{ userID := userID, roleID := roleID, grantedBy := grantedBy, grantedAt := now }] }

/-- src/internal/auth/rbac.go, `RBACService.RemoveRoleFromUser`: a delete of
the matching rows; `RowsAffected == 0` is reported as not found. -/
def DB.RemoveRoleFromUser (st : DB) (userID roleID : String) : Except RegErr DB :=
  let remaining := st.userRoles.filter (fun a => !(a.userID == userID && a.roleID == roleID))
  if remaining.length == st.userRoles.length then Except.error RegErr.notFound
  else Except.ok { st with userRoles := remaining }

/-- src/internal/auth/rbac.go, `RBACService.DeleteRole`: inside one
transaction, delete the user-role rows for the role, then its
role-permission links, then the role row itself. None of the three gorm
deletes reports an error when zero rows match, and absent a storage
failure the transaction commits. -/
def DB.DeleteRole (st : DB) (roleID : String) : Except RegErr DB :=
  Except.ok { st with
    userRoles := st.userRoles.filter (fun a => !(a.roleID == roleID)),
    rolePermissions := st.rolePermissions.filter (fun l => !(l.roleID == roleID)),
    roles := st.roles.filter (fun r => !(r.id == roleID)) }

/-- The role names a user holds, as loaded by `Preload("Roles")` followed by
`GetRoleNames` (src/unnamed/part_006): the names of the roles joined
through `user_roles`. -/
def DB.userRoleNames (st : DB) (userID : String) : List String :=
  (st.roles.filter (fun r =>
    st.userRoles.any (fun a => a.userID == userID && a.roleID == r.id))).map
    (fun r => r.name)

/-- Errors of the refresh handler (src/internal/handlers/auth.go,
`AuthHandler.RefreshToken`): missing context claims (401 INVALID_TOKEN) or
a missing/inactive user (401 USER_INACTIVE). -/
inductive HandlerError
  | invalidToken
  | userInactive
deriving DecidableEq

/-- The `models.AuthResponse` body the refresh handler writes. -/
structure AuthBody where
  token : Token
  expiresAt : Int
  userID : String
  userEmail : String
  userRoles : List String
deriving DecidableEq

/-- src/internal/handlers/auth.go, `AuthHandler.RefreshToken`: take the
validated claims from the context, re-read the user (must be active) with
its CURRENT roles from the store, and generate the new token from those
live role names. -/
def handlerRefreshToken (tm : TokenManager) (st : DB) (ctxClaims : Option Claims)
    (now : Int) : Except HandlerError AuthBody :=
  match ctxClaims with
  | none => Except.error HandlerError.invalidToken
  | some claims =>
    match st.users.find? (fun u => u.id == claims.userID && u.active) with
    | none => Except.error HandlerError.userInactive
    | some user =>
      let roleNames := st.userRoleNames user.id
      let pair := tm.GenerateToken user.id user.email roleNames now
      Except.ok { token := pair.1, expiresAt := pair.2, userID := user.id,
                  userEmail := user.email, userRoles := roleNames }

/-- A default permission entry of `InitializeDefaultRoles`
(src/internal/auth/rbac.go): the id is assigned by the uuid hook at create
time. -/
structure PermSpec where
  name : String
  description : String
  resource : String
  action : String
deriving DecidableEq

/-- The `defaultPermissions` slice of `InitializeDefaultRoles`. -/
def defaultPermissions : List PermSpec :=
  [⟨"patients:create", "Create patients", "patients", "create"⟩,
   ⟨"patients:read", "Read patients", "patients", "read"⟩,
   ⟨"patients:update", "Update patients", "patients", "update"⟩,
   ⟨"patients:delete", "Delete patients", "patients", "delete"⟩,
   ⟨"observations:create", "Create observations", "observations", "create"⟩,
   ⟨"observations:read", "Read observations", "observations", "read"⟩,
   ⟨"observations:update", "Update observations", "observations", "update"⟩,
   ⟨"observations:delete", "Delete observations", "observations", "delete"⟩,
   ⟨"users:create", "Create users", "users", "create"⟩,
   ⟨"users:read", "Read users", "users", "read"⟩,
   ⟨"users:update", "Update users", "users", "update"⟩,
   ⟨"users:delete", "Delete users", "users", "delete"⟩]

/-- The `rolePermissions` map of `InitializeDefaultRoles`. Go map iteration
order is unspecified; the list fixes the textual order (the properties
proved are order-insensitive). -/
def defaultRolePermissions : List (String × List String) :=
  [("admin",
     ["patients:create", "patients:read", "patients:update", "patients:delete",
      "observations:create", "observations:read", "observations:update", "observations:delete",
      "users:create", "users:read", "users:update", "users:delete"]),
   ("practitioner",
     ["patients:create", "patients:read", "patients:update",
      "observations:create", "observations:read", "observations:update"]),
   ("nurse",
     ["patients:read", "observations:read"]),
   ("lab-tech",
     ["patients:read", "observations:create", "observations:read", "observations:update"])]

/-- One iteration of the permission-seeding loop of
`InitializeDefaultRoles`: look the name up first, create only when the
lookup reports record-not-found. -/
def seedPermission (st : DB) (p : PermSpec) : DB :=
  if st.permissions.any (fun q => q.name == p.name) then st
  else
    { st with
      permissions := st.permissions ++
        [{ id := genID st.nextID, name := p.name, description := p.description,
           resource := p.resource, action := p.action }],
      nextID := st.nextID + 1 }

/-- One iteration of the role-seeding loop of `InitializeDefaultRoles`:
look the role name up; when absent, create it and link it to the
permissions found by name. -/
def seedRole (st : DB) (roleName : String) (permNames : List String) : DB :=
  if st.roles.any (fun r => r.name == roleName) then st
  else
    let role : RoleRow :=
      { id := genID st.nextID, name := roleName,
        description := "Default " ++ roleName ++ " role" }
    let st1 : DB := { st with roles := st.roles ++ [role], nextID := st.nextID + 1 }
    let found := st1.permissions.filter (fun p => permNames.contains p.name)
    { st1 with rolePermissions := st1.rolePermissions ++
        found.map (fun p => RolePermissionRow.mk role.id p.id) }

/-- src/internal/auth/rbac.go, `RBACService.InitializeDefaultRoles`
(`seedDefaults` in the spec): seed the canonical permissions, then the
canonical roles with their permission links. Every Go error branch wraps a
storage failure, which the store model excludes, so the operation is a
pure state transformation here. -/
def DB.initDefaultRoles (st : DB) : DB :=
  let st1 := defaultPermissions.foldl seedPermission st
  defaultRolePermissions.foldl (fun s rp => seedRole s rp.fst rp.snd) st1

/-- The stored permission names, in table order. -/
def DB.permissionNames (st : DB) : List String :=
  st.permissions.map (fun p => p.name)

/-- The stored role names, in table order. -/
def DB.roleNames (st : DB) : List String :=
  st.roles.map (fun r => r.name)

/-- A concrete token manager used by the concrete instantiations below. -/
def tm0 : TokenManager := { secretKey := "test-secret", issuer := "healthhub" }

/-- Claim C1: for every identity id, email, and role list, validating a
token produced by `GenerateToken` succeeds and returns the same user id,
email, and role list whenever `now ≤ now2 < expiry`
(`expiry = now + 24h`); validation at `now2 ≥ expiry` fails with
`Expired`, and at `now2` before the embedded not-before instant fails
with `NotYetValid`. -/
theorem generate_validate_roundtrip (tm : TokenManager) (userID email : String)
    (roles : List String) (now now2 : Int) :
    (now ≤ now2 ∧ now2 < now + tokenValidityWindow →
      tm.ValidateToken (tm.GenerateToken userID email roles now).1 now2 =
        Except.ok { userID := userID, email := email, roles := roles,
                    expiresAt := now + tokenValidityWindow, issuedAt := now,
                    notBefore := now, issuer := tm.issuer, subject := userID }) ∧
    (now + tokenValidityWindow ≤ now2 →
      tm.ValidateToken (tm.GenerateToken userID email roles now).1 now2 =
        Except.error TokenError.expired) ∧
    (now2 < now →
      tm.ValidateToken (tm.GenerateToken userID email roles now).1 now2 =
        Except.error TokenError.notYetValid) := by
  have hW : tokenValidityWindow = 86400 := by norm_num [tokenValidityWindow]
  refine ⟨?_, ?_, ?_⟩
  · rintro ⟨h1, h2⟩
    simp only [TokenManager.GenerateToken, TokenManager.ValidateToken]
    rw [if_neg (by simp), if_neg (by simp), if_neg (by omega), if_neg (by omega)]
  · intro h
    simp only [TokenManager.GenerateToken, TokenManager.ValidateToken]
    rw [if_neg (by simp), if_neg (by simp), if_pos (by omega)]
  · intro h
    simp only [TokenManager.GenerateToken, TokenManager.ValidateToken]
    rw [if_neg (by simp), if_neg (by simp), if_neg (by omega), if_pos (by omega)]

/-- Concrete instantiation of `generate_validate_roundtrip`: a token issued
at time 0 validates at 100, is expired at 86400, and is not yet valid at
-1. -/
theorem generate_validate_roundtrip_witness :
    (TokenManager.ValidateToken tm0
        ((TokenManager.GenerateToken tm0 "u1" "e@x" ["practitioner"] 0).1) 100 =
      Except.ok { userID := "u1", email := "e@x", roles := ["practitioner"],
                  expiresAt := 0 + tokenValidityWindow, issuedAt := 0,
                  notBefore := 0, issuer := tm0.issuer, subject := "u1" }) ∧
    (TokenManager.ValidateToken tm0
        ((TokenManager.GenerateToken tm0 "u1" "e@x" ["practitioner"] 0).1) 86400 =
      Except.error TokenError.expired) ∧
    (TokenManager.ValidateToken tm0
        ((TokenManager.GenerateToken tm0 "u1" "e@x" ["practitioner"] 0).1) (-1) =
      Except.error TokenError.notYetValid) :=
  ⟨(generate_validate_roundtrip tm0 "u1" "e@x" ["practitioner"] 0 100).1
      ⟨by omega, by simp only [tokenValidityWindow]; omega⟩,
   (generate_validate_roundtrip tm0 "u1" "e@x" ["practitioner"] 0 86400).2.1
      (by simp only [tokenValidityWindow]; omega),
   (generate_validate_roundtrip tm0 "u1" "e@x" ["practitioner"] 0 (-1)).2.2
      (by omega)⟩

/-- The claims embedded in a token issued at time 0 for user u1 holding
role practitioner. -/
def c2SnapshotClaims : Claims :=
  { userID := "u1", email := "u1@x", roles := ["practitioner"],
    expiresAt := 0 + tokenValidityWindow, issuedAt := 0, notBefore := 0,
    issuer := tm0.issuer, subject := "u1" }

/-- The stored user row of the C2 scenario. -/
def u0 : UserRow := { id := "u1", email := "u1@x", active := true, password := ⟨10, "pw"⟩ }

/-- A store in which user u1's live role set has changed to nurse after the
practitioner token was issued. -/
def c2DB : DB :=
  { users := [u0],
    roles := [{ id := "r-nurse", name := "nurse", description := "n" }],
    permissions := [],
    userRoles := [{ userID := "u1", roleID := "r-nurse", grantedBy := "admin", grantedAt := 5 }],
    rolePermissions := [],
    nextID := 0 }

/-- Claim C2 counterexample: the refresh operation exposed by the system is
the handler wired to POST /api/v1/auth/refresh. For a valid token whose
embedded snapshot is [practitioner] while the user's live roles have
changed to [nurse], that handler issues a token carrying [nurse] — the
live role state, not the embedded snapshot the claim requires. -/
theorem handlerRefresh_uses_live_roles_cex :
    TokenManager.ValidateToken tm0
        ((TokenManager.GenerateToken tm0 "u1" "u1@x" ["practitioner"] 0).1) 10 =
      Except.ok c2SnapshotClaims ∧
    c2SnapshotClaims.roles = ["practitioner"] ∧
    handlerRefreshToken tm0 c2DB (some c2SnapshotClaims) 10 =
      Except.ok { token := (TokenManager.GenerateToken tm0 "u1" "u1@x" ["nurse"] 10).1,
                  expiresAt := 10 + tokenValidityWindow, userID := "u1",
                  userEmail := "u1@x", userRoles := ["nurse"] } ∧
    (["nurse"] : List String) ≠ ["practitioner"] := by
  refine ⟨by decide, rfl, by decide, by decide⟩

/-- Claim C2 (amended): the codec-level `TokenManager.RefreshToken` is
equivalent to validate followed by issue using the same embedded identity,
email, and roles (it preserves the snapshot and propagates validation
errors unchanged); the refresh operation exposed by the system
(`AuthHandler.RefreshToken`), however, re-reads the identity's current
role state and issues the new token from the live role names. -/
theorem refreshToken_amended :
    (∀ (tm : TokenManager) (t : Token) (now : Int) (c : Claims),
      tm.ValidateToken t now = Except.ok c →
      tm.RefreshToken t now = Except.ok (tm.GenerateToken c.userID c.email c.roles now) ∧
      ∃ st2, (tm.GenerateToken c.userID c.email c.roles now).1 = Token.signed st2 ∧
        st2.claims.roles = c.roles ∧ st2.claims.userID = c.userID ∧
        st2.claims.email = c.email) ∧
    (∀ (tm : TokenManager) (t : Token) (now : Int) (e : TokenError),
      tm.ValidateToken t now = Except.error e →
      tm.RefreshToken t now = Except.error e) ∧
    (∀ (tm : TokenManager) (st : DB) (c : Claims) (now : Int) (u : UserRow),
      st.users.find? (fun x => x.id == c.userID && x.active) = some u →
      handlerRefreshToken tm st (some c) now =
        Except.ok { token := (tm.GenerateToken u.id u.email (st.userRoleNames u.id) now).1,
                    expiresAt := (tm.GenerateToken u.id u.email (st.userRoleNames u.id) now).2,
                    userID := u.id, userEmail := u.email,
                    userRoles := st.userRoleNames u.id }) := by
  refine ⟨?_, ?_, ?_⟩
  · intro tm t now c h
    exact ⟨by simp only [TokenManager.RefreshToken, h], ⟨_, rfl, rfl, rfl, rfl⟩⟩
  · intro tm t now e h
    simp only [TokenManager.RefreshToken, h]
  · intro tm st c now u h
    simp only [handlerRefreshToken, h]

/-- Concrete instantiation of `refreshToken_amended`: the codec refresh of
the practitioner token re-issues the practitioner snapshot, and the
handler refresh against `c2DB` issues from the live role names. -/
theorem refreshToken_amended_witness :
    TokenManager.RefreshToken tm0
        ((TokenManager.GenerateToken tm0 "u1" "u1@x" ["practitioner"] 0).1) 10 =
      Except.ok (TokenManager.GenerateToken tm0 c2SnapshotClaims.userID
        c2SnapshotClaims.email c2SnapshotClaims.roles 10) ∧
    handlerRefreshToken tm0 c2DB (some c2SnapshotClaims) 10 =
      Except.ok { token := (TokenManager.GenerateToken tm0 u0.id u0.email
                    (c2DB.userRoleNames u0.id) 10).1,
                  expiresAt := (TokenManager.GenerateToken tm0 u0.id u0.email
                    (c2DB.userRoleNames u0.id) 10).2,
                  userID := u0.id, userEmail := u0.email,
                  userRoles := c2DB.userRoleNames u0.id } :=
  ⟨(refreshToken_amended.1 tm0
      ((TokenManager.GenerateToken tm0 "u1" "u1@x" ["practitioner"] 0).1) 10
      c2SnapshotClaims (by decide)).1,
   refreshToken_amended.2.2 tm0 c2DB c2SnapshotClaims 10 u0 (by decide)⟩

/-- Claim C3: for every request carrying a bearer token that fails
validation, `AuthMiddleware` aborts with one single 401 response whose
caller-visible body is identical regardless of the TokenError sub-kind:
two runs differing only in the failure sub-kind yield the same response. -/
theorem authMiddleware_collapses_token_errors
    (tm : TokenManager) (t1 t2 : Token) (now1 now2 : Int) (e1 e2 : TokenError)
    (h1 : tm.ValidateToken t1 now1 = Except.error e1)
    (h2 : tm.ValidateToken t2 now2 = Except.error e2) :
    AuthMiddleware tm (AuthHeader.bearer t1) now1 =
      AuthMiddleware tm (AuthHeader.bearer t2) now2 ∧
    AuthMiddleware tm (AuthHeader.bearer t1) now1 =
      (GuardOutcome.abortWith ⟨401, ⟨"Invalid or expired token", "INVALID_TOKEN"⟩⟩, none) := by
  simp [AuthMiddleware, h1, h2]

/-- Concrete instantiation of `authMiddleware_collapses_token_errors`: a
malformed token and an expired token produce the same response. -/
theorem authMiddleware_collapses_witness :
    AuthMiddleware tm0 (AuthHeader.bearer Token.malformed) 0 =
      AuthMiddleware tm0 (AuthHeader.bearer
        ((TokenManager.GenerateToken tm0 "u1" "e@x" ["practitioner"] 0).1)) 1000000 ∧
    AuthMiddleware tm0 (AuthHeader.bearer Token.malformed) 0 =
      (GuardOutcome.abortWith ⟨401, ⟨"Invalid or expired token", "INVALID_TOKEN"⟩⟩, none) :=
  authMiddleware_collapses_token_errors tm0 Token.malformed
    ((TokenManager.GenerateToken tm0 "u1" "e@x" ["practitioner"] 0).1) 0 1000000
    TokenError.malformedToken TokenError.expired rfl (by decide)

/-- Claim C4: for every authenticated request whose token role snapshot is
non-empty and every required role list, `RequireRole` authorizes the
request iff the snapshot contains at least one required role, and when the
identity is known but lacks every required role the denial is the 403
Forbidden response, never a 401. -/
theorem requireRole_spec (c : Claims) (allowedRoles : List String)
    (_hne : c.roles ≠ []) :
    (RequireRole allowedRoles (some c) = GuardOutcome.next ↔
      ∃ r, r ∈ allowedRoles ∧ r ∈ c.roles) ∧
    ((¬ ∃ r, r ∈ allowedRoles ∧ r ∈ c.roles) →
      RequireRole allowedRoles (some c) =
        GuardOutcome.abortWith ⟨403, ⟨"Insufficient permissions", "INSUFFICIENT_PERMISSIONS"⟩⟩) := by
  have key : (c.HasAnyRole allowedRoles = true) ↔ ∃ r, r ∈ allowedRoles ∧ r ∈ c.roles := by
    simp [Claims.HasAnyRole, Claims.HasRole, List.any_eq_true]
  refine ⟨⟨?_, ?_⟩, ?_⟩
  · intro h
    by_contra hno
    have hfalse : c.HasAnyRole allowedRoles = false := by
      cases hcase : c.HasAnyRole allowedRoles
      · rfl
      · exact absurd (key.mp hcase) hno
    simp [RequireRole, hfalse] at h
  · intro hex
    have htrue := key.mpr hex
    simp [RequireRole, htrue]
  · intro hno
    have hfalse : c.HasAnyRole allowedRoles = false := by
      cases hcase : c.HasAnyRole allowedRoles
      · rfl
      · exact absurd (key.mp hcase) hno
    simp [RequireRole, hfalse]

/-- Concrete instantiation of `requireRole_spec`: a token with roles
[practitioner] passes a guard requiring practitioner or admin and is
denied with 403 by a guard requiring admin alone. -/
theorem requireRole_spec_witness :
    c2SnapshotClaims.roles ≠ [] ∧
    RequireRole ["practitioner", "admin"] (some c2SnapshotClaims) = GuardOutcome.next ∧
    RequireRole ["admin"] (some c2SnapshotClaims) =
      GuardOutcome.abortWith ⟨403, ⟨"Insufficient permissions", "INSUFFICIENT_PERMISSIONS"⟩⟩ :=
  ⟨by decide,
   (requireRole_spec c2SnapshotClaims ["practitioner", "admin"] (by decide)).1.mpr
     ⟨"practitioner", by decide, by decide⟩,
   (requireRole_spec c2SnapshotClaims ["admin"] (by decide)).2 (by decide)⟩

/-- A store holding one permission (id p1) and no roles. -/
def c5DB : DB :=
  { users := [], roles := [],
    permissions := [{ id := "p1", name := "patients:read", description := "",
                      resource := "patients", action := "read" }],
    userRoles := [], rolePermissions := [], nextID := 0 }

/-- The same store with an existing role named auditor. -/
def c5DBdup : DB :=
  { c5DB with roles := [{ id := "r9", name := "auditor", description := "" }] }

/-- Claim C5 counterexample: `CreateRole` with a fresh name and a
permission id list containing only an unresolvable id succeeds — it
returns no NotFound error, creates the role row, and associates nothing
(the unresolvable id is silently dropped), so the role row is an
observable partial write. -/
theorem createRole_unresolvable_cex :
    DB.CreateRole c5DB "auditor" "audit" ["missing-id"] =
      Except.ok ({ id := "uuid-0", name := "auditor", description := "audit" },
        { users := [],
          roles := [{ id := "uuid-0", name := "auditor", description := "audit" }],
          permissions := [{ id := "p1", name := "patients:read", description := "",
                            resource := "patients", action := "read" }],
          userRoles := [], rolePermissions := [], nextID := 1 }) := by decide

/-- Claim C5 (amended): `CreateRole` fails with Conflict when the name
already exists; otherwise it succeeds unconditionally, creating the role
row and linking exactly the permission ids that resolve — unresolvable ids
are silently ignored (no NotFound, and the role row persists). -/
theorem createRole_amended (st : DB) (name description : String) (pids : List String) :
    (st.roles.any (fun r => r.name == name) = true →
      DB.CreateRole st name description pids = Except.error RegErr.conflict) ∧
    (st.roles.any (fun r => r.name == name) = false →
      ∃ role st1, DB.CreateRole st name description pids = Except.ok (role, st1) ∧
        role.name = name ∧ st1.roles = st.roles ++ [role] ∧
        st1.users = st.users ∧ st1.permissions = st.permissions ∧
        st1.userRoles = st.userRoles ∧
        (∀ l, l ∈ st1.rolePermissions ↔ (l ∈ st.rolePermissions ∨
          (l.roleID = role.id ∧ ∃ p, p ∈ st.permissions ∧ p.id = l.permissionID ∧
            pids.contains p.id = true)))) := by
  constructor
  · intro h
    simp [DB.CreateRole, h]
  · intro h
    by_cases hp : pids.isEmpty
    · refine ⟨{ id := genID st.nextID, name := name, description := description },
        { st with
          roles := st.roles ++ [{ id := genID st.nextID, name := name,
                                  description := description }],
          nextID := st.nextID + 1 },
        ?_, rfl, rfl, rfl, rfl, rfl, ?_⟩
      · simp [DB.CreateRole, h, hp]
      · intro l
        have hnil : pids = [] := List.isEmpty_iff.mp hp
        subst hnil
        simp
    · refine ⟨{ id := genID st.nextID, name := name, description := description },
        { st with
          roles := st.roles ++ [{ id := genID st.nextID, name := name,
                                  description := description }],
          nextID := st.nextID + 1,
          rolePermissions := st.rolePermissions ++
            (st.permissions.filter (fun p => pids.contains p.id)).map
              (fun p => RolePermissionRow.mk (genID st.nextID) p.id) },
        ?_, rfl, rfl, rfl, rfl, rfl, ?_⟩
      · simp [DB.CreateRole, h, hp]
      · intro l
        constructor
        · intro hl
          rcases List.mem_append.mp hl with hl | hl
          · exact Or.inl hl
          · rcases List.mem_map.mp hl with ⟨p, hpmem, hpl⟩
            rcases List.mem_filter.mp hpmem with ⟨hpmem2, hq⟩
            subst hpl
            exact Or.inr ⟨rfl, p, hpmem2, rfl, hq⟩
        · intro hl
          rcases hl with hl | ⟨hrid, p, hpmem, hpid, hc⟩
          · exact List.mem_append.mpr (Or.inl hl)
          · cases l with
            | mk lrid lpid =>
              simp only at hrid hpid
              subst hrid
              subst hpid
              exact List.mem_append.mpr (Or.inr (List.mem_map.mpr
                ⟨p, List.mem_filter.mpr ⟨hpmem, hc⟩, rfl⟩))

/-- Concrete instantiation of `createRole_amended`: a duplicate name is a
Conflict, and a fresh name with a resolvable permission id succeeds. -/
theorem createRole_amended_witness :
    DB.CreateRole c5DBdup "auditor" "d" [] = Except.error RegErr.conflict ∧
    (DB.CreateRole c5DB "auditor" "d" ["p1"]).isOk = true := by
  refine ⟨(createRole_amended c5DBdup "auditor" "d" []).1 (by decide), ?_⟩
  obtain ⟨role, st1, heq, -, -, -, -, -, -⟩ :=
    (createRole_amended c5DB "auditor" "d" ["p1"]).2 (by decide)
  rw [heq]
  rfl

/-- A store holding one role (id r2, name nurse) and nothing else. -/
def c6DB : DB :=
  { users := [], roles := [{ id := "r2", name := "nurse", description := "" }],
    permissions := [], userRoles := [], rolePermissions := [], nextID := 0 }

/-- Claim C6 counterexample: `DeleteRole` of an id that matches no stored
role succeeds (the gorm deletes report no error on zero matched rows and
the transaction commits); the claim requires a NotFound failure. -/
theorem deleteRole_missing_role_cex :
    DB.DeleteRole c6DB "r1" = Except.ok c6DB := by decide

/-- Claim C6 (amended): `DeleteRole` removes, as one atomic unit, every
user-role assignment and every role-permission link referencing the role
together with the role row, preserving all rows that do not reference it
(no orphaned link rows); deleting an id referenced by no row succeeds and
leaves the state unchanged — it reports success, not NotFound. -/
theorem deleteRole_amended (st : DB) (roleID : String) :
    (∃ st1, DB.DeleteRole st roleID = Except.ok st1 ∧
      (∀ a, a ∈ st1.userRoles ↔ (a ∈ st.userRoles ∧ a.roleID ≠ roleID)) ∧
      (∀ l, l ∈ st1.rolePermissions ↔ (l ∈ st.rolePermissions ∧ l.roleID ≠ roleID)) ∧
      (∀ r, r ∈ st1.roles ↔ (r ∈ st.roles ∧ r.id ≠ roleID)) ∧
      st1.users = st.users ∧ st1.permissions = st.permissions) ∧
    (((∀ r ∈ st.roles, r.id ≠ roleID) ∧ (∀ a ∈ st.userRoles, a.roleID ≠ roleID) ∧
      (∀ l ∈ st.rolePermissions, l.roleID ≠ roleID)) →
      DB.DeleteRole st roleID = Except.ok st) := by
  constructor
  · refine ⟨_, rfl, ?_, ?_, ?_, rfl, rfl⟩
    · intro a
      simp [List.mem_filter]
    · intro l
      simp [List.mem_filter]
    · intro r
      simp [List.mem_filter]
  · rintro ⟨h1, h2, h3⟩
    have e1 : st.userRoles.filter (fun a => !(a.roleID == roleID)) = st.userRoles :=
      List.filter_eq_self.mpr (fun a ha => by simpa using h2 a ha)
    have e2 : st.rolePermissions.filter (fun l => !(l.roleID == roleID)) = st.rolePermissions :=
      List.filter_eq_self.mpr (fun l hl => by simpa using h3 l hl)
    have e3 : st.roles.filter (fun r => !(r.id == roleID)) = st.roles :=
      List.filter_eq_self.mpr (fun r hr => by simpa using h1 r hr)
    simp only [DB.DeleteRole, e1, e2, e3]

/-- Concrete instantiation of `deleteRole_amended`: deleting an id no row
references returns success with the state unchanged. -/
theorem deleteRole_amended_witness :
    DB.DeleteRole c6DB "zzz" = Except.ok c6DB :=
  (deleteRole_amended c6DB "zzz").2 (by decide)

/-- Claim C8: `AssignRoleToUser` fails with NotFound when the user or the
role is absent, fails with Conflict when the (user, role) assignment
already exists, and on success appends exactly one assignment row, so the
result holds the pair exactly once; `RemoveRoleFromUser` fails with
NotFound when no such assignment exists. -/
theorem assignRole_spec (st : DB) (userID roleID grantedBy : String) (now : Int) :
    (st.users.any (fun u => u.id == userID) = false →
      DB.AssignRoleToUser st userID roleID grantedBy now = Except.error RegErr.notFound) ∧
    (st.users.any (fun u => u.id == userID) = true →
      st.roles.any (fun r => r.id == roleID) = false →
      DB.AssignRoleToUser st userID roleID grantedBy now = Except.error RegErr.notFound) ∧
    (st.users.any (fun u => u.id == userID) = true →
      st.roles.any (fun r => r.id == roleID) = true →
      st.userRoles.any (fun a => a.userID == userID && a.roleID == roleID) = true →
      DB.AssignRoleToUser st userID roleID grantedBy now = Except.error RegErr.conflict) ∧
    (st.users.any (fun u => u.id == userID) = true →
      st.roles.any (fun r => r.id == roleID) = true →
      st.userRoles.any (fun a => a.userID == userID && a.roleID == roleID) = false →
      DB.AssignRoleToUser st userID roleID grantedBy now =
        Except.ok { st with userRoles := st.userRoles ++
          [{ userID := userID, roleID := roleID, grantedBy := grantedBy, grantedAt := now }] } ∧
      (st.userRoles ++
          [UserRoleRow.mk userID roleID grantedBy now]).countP
        (fun a => a.userID == userID && a.roleID == roleID) = 1) ∧
    ((∀ a ∈ st.userRoles, ¬(a.userID = userID ∧ a.roleID = roleID)) →
      DB.RemoveRoleFromUser st userID roleID = Except.error RegErr.notFound) := by
  refine ⟨?_, ?_, ?_, ?_, ?_⟩
  · intro h
    simp [DB.AssignRoleToUser, h]
  · intro h1 h2
    simp [DB.AssignRoleToUser, h1, h2]
  · intro h1 h2 h3
    simp [DB.AssignRoleToUser, h1, h2, h3]
  · intro h1 h2 h3
    refine ⟨by simp [DB.AssignRoleToUser, h1, h2, h3], ?_⟩
    rw [List.countP_append]
    have h0 : st.userRoles.countP (fun a => a.userID == userID && a.roleID == roleID) = 0 := by
      rw [List.countP_eq_zero]
      exact List.any_eq_false.mp h3
    rw [h0]
    simp [List.countP_cons]
  · intro h
    have e : st.userRoles.filter
        (fun a => !(a.userID == userID && a.roleID == roleID)) = st.userRoles :=
      List.filter_eq_self.mpr (fun a ha => by
        by_cases h1 : a.userID = userID
        · have h2 : a.roleID ≠ roleID := fun hb => h a ha ⟨h1, hb⟩
          simp [h1, h2]
        · simp [h1])
    simp only [DB.RemoveRoleFromUser, e, beq_self_eq_true, if_true]

/-- A store with user u1 and role r1 but no assignment between them. -/
def c8DB : DB :=
  { users := [u0], roles := [{ id := "r1", name := "practitioner", description := "" }],
    permissions := [], userRoles := [], rolePermissions := [], nextID := 0 }

/-- Concrete instantiation of `assignRole_spec`: missing user and missing
role are NotFound, a duplicate assignment is a Conflict, a fresh
assignment succeeds with one row, and removing a nonexistent assignment is
NotFound. -/
theorem assignRole_spec_witness :
    DB.AssignRoleToUser c8DB "ghost" "r1" "g" 0 = Except.error RegErr.notFound ∧
    DB.AssignRoleToUser c8DB "u1" "ghost" "g" 0 = Except.error RegErr.notFound ∧
    DB.AssignRoleToUser c2DB "u1" "r-nurse" "g" 0 = Except.error RegErr.conflict ∧
    DB.AssignRoleToUser c8DB "u1" "r1" "g" 0 =
      Except.ok { c8DB with userRoles := c8DB.userRoles ++
        [{ userID := "u1", roleID := "r1", grantedBy := "g", grantedAt := 0 }] } ∧
    DB.RemoveRoleFromUser c8DB "u1" "r1" = Except.error RegErr.notFound :=
  ⟨(assignRole_spec c8DB "ghost" "r1" "g" 0).1 (by decide),
   (assignRole_spec c8DB "u1" "ghost" "g" 0).2.1 (by decide) (by decide),
   (assignRole_spec c2DB "u1" "r-nurse" "g" 0).2.2.1 (by decide) (by decide) (by decide),
   ((assignRole_spec c8DB "u1" "r1" "g" 0).2.2.2.1 (by decide) (by decide) (by decide)).1,
   (assignRole_spec c8DB "u1" "r1" "g" 0).2.2.2.2 (by decide)⟩

/-- Claim C9: for every stored hash and every secret that does not match
it, `CheckPassword` returns the mismatch error value — the negative
result `bcrypt.CompareHashAndPassword` reports (the Go function returns an
error value and never panics; the model function is total). -/
theorem checkPassword_mismatch (u : UserRow) (password : String)
    (h : password ≠ u.password.secret) :
    u.CheckPassword password = BcryptResult.mismatchedHashAndPassword := by
  have hfalse : (u.password.secret == password) = false := by
    rw [beq_eq_false_iff_ne]
    exact fun heq => h heq.symm
  simp [UserRow.CheckPassword, compareHashAndPassword, hfalse]

/-- Concrete instantiation of `checkPassword_mismatch`. -/
theorem checkPassword_mismatch_witness :
    UserRow.CheckPassword u0 "wrong" = BcryptResult.mismatchedHashAndPassword :=
  checkPassword_mismatch u0 "wrong" (by decide)

/-- Claim C10: for every role-name list containing none of admin,
practitioner, nurse, or lab-tech, `checkPermission` returns false for
every resource and action — in particular the default role name patient,
which has no entry in the hard-coded matrix, is always denied. -/
theorem checkPermission_unknown_roles (userRoles : List String)
    (h : ∀ r ∈ userRoles, r ∉ ["admin", "practitioner", "nurse", "lab-tech"]) :
    ∀ resource action, checkPermission userRoles resource action = false := by
  intro resource action
  simp only [checkPermission]
  rw [List.any_eq_false]
  intro role hrole
  have hr := h role hrole
  simp only [List.mem_cons, not_or] at hr
  obtain ⟨h1, h2, h3, h4, -⟩ := hr
  have e1 : ("admin" == role) = false := beq_eq_false_iff_ne.mpr (Ne.symm h1)
  have e2 : ("practitioner" == role) = false := beq_eq_false_iff_ne.mpr (Ne.symm h2)
  have e3 : ("nurse" == role) = false := beq_eq_false_iff_ne.mpr (Ne.symm h3)
  have e4 : ("lab-tech" == role) = false := beq_eq_false_iff_ne.mpr (Ne.symm h4)
  have hlook : lookupAssoc permissionsMatrix role = none := by
    simp [lookupAssoc, permissionsMatrix, List.find?, e1, e2, e3, e4]
  simp [hlook]

/-- Concrete instantiation of `checkPermission_unknown_roles`: a token with
role snapshot [patient] is denied read on patients. -/
theorem checkPermission_unknown_roles_witness :
    checkPermission ["patient"] "patients" "read" = false :=
  checkPermission_unknown_roles ["patient"] (by decide) "patients" "read"

/-- The existence check of the permission-seeding loop, restated as
membership among the stored permission names. -/
theorem any_permission_name_iff (st : DB) (n : String) :
    (st.permissions.any (fun q => q.name == n) = true) ↔ n ∈ st.permissionNames := by
  simp [DB.permissionNames, List.any_eq_true, List.mem_map]

/-- The existence check of the role-seeding loop, restated as membership
among the stored role names. -/
theorem any_role_name_iff (st : DB) (n : String) :
    (st.roles.any (fun r => r.name == n) = true) ↔ n ∈ st.roleNames := by
  simp [DB.roleNames, List.any_eq_true, List.mem_map]

/-- seedPermission does not touch the roles table. -/
theorem seedPermission_roles (st : DB) (p : PermSpec) :
    (seedPermission st p).roles = st.roles := by
  unfold seedPermission
  split <;> rfl

/-- seedPermission is a no-op when the permission name already exists. -/
theorem seedPermission_of_mem (st : DB) (p : PermSpec)
    (h : p.name ∈ st.permissionNames) : seedPermission st p = st := by
  unfold seedPermission
  rw [if_pos ((any_permission_name_iff st p.name).mpr h)]

/-- seedPermission never removes a stored permission name. -/
theorem seedPermission_name_mono (st : DB) (p : PermSpec) (n : String)
    (h : n ∈ st.permissionNames) : n ∈ (seedPermission st p).permissionNames := by
  unfold seedPermission
  split
  · exact h
  · simp only [DB.permissionNames, List.map_append] at h ⊢
    exact List.mem_append_left _ h

/-- After seedPermission the seeded name is stored. -/
theorem seedPermission_name_self (st : DB) (p : PermSpec) :
    p.name ∈ (seedPermission st p).permissionNames := by
  unfold seedPermission
  split
  · next hguard => exact (any_permission_name_iff st p.name).mp hguard
  · simp [DB.permissionNames]

/-- seedPermission preserves distinctness of the stored permission names. -/
theorem seedPermission_nodup (st : DB) (p : PermSpec)
    (h : st.permissionNames.Nodup) : (seedPermission st p).permissionNames.Nodup := by
  unfold seedPermission
  split
  · exact h
  · next hguard =>
    have hnot : p.name ∉ st.permissionNames :=
      fun hm => hguard ((any_permission_name_iff st p.name).mpr hm)
    have heq : ({ st with
        permissions := st.permissions ++
          [{ id := genID st.nextID, name := p.name, description := p.description,
             resource := p.resource, action := p.action }],
        nextID := st.nextID + 1 } : DB).permissionNames =
        st.permissionNames ++ [p.name] := by
      simp [DB.permissionNames]
    rw [heq]
    refine List.Nodup.append h (List.nodup_singleton _) ?_
    intro x hx1 hx2
    rw [List.mem_singleton] at hx2
    subst hx2
    exact hnot hx1

/-- The permission-seeding fold does not touch the roles table. -/
theorem foldSeedPermission_roles (ps : List PermSpec) (st : DB) :
    (ps.foldl seedPermission st).roles = st.roles := by
  induction ps generalizing st with
  | nil => rfl
  | cons p ps ih => rw [List.foldl_cons, ih, seedPermission_roles]

/-- The permission-seeding fold never removes a stored permission name. -/
theorem foldSeedPermission_name_mono (ps : List PermSpec) (st : DB) (n : String)
    (h : n ∈ st.permissionNames) : n ∈ (ps.foldl seedPermission st).permissionNames := by
  induction ps generalizing st with
  | nil => exact h
  | cons p ps ih => exact ih _ (seedPermission_name_mono _ _ _ h)

/-- After the permission-seeding fold every seeded name is stored. -/
theorem foldSeedPermission_ensures (ps : List PermSpec) (st : DB) :
    ∀ p ∈ ps, p.name ∈ (ps.foldl seedPermission st).permissionNames := by
  induction ps generalizing st with
  | nil => intro p hp; cases hp
  | cons q ps ih =>
    intro p hp
    rcases List.mem_cons.mp hp with h | h
    · subst h
      exact foldSeedPermission_name_mono ps _ _ (seedPermission_name_self _ _)
    · exact ih _ p h

/-- The permission-seeding fold preserves distinctness of the stored
permission names. -/
theorem foldSeedPermission_nodup (ps : List PermSpec) (st : DB)
    (h : st.permissionNames.Nodup) :
    (ps.foldl seedPermission st).permissionNames.Nodup := by
  induction ps generalizing st with
  | nil => exact h
  | cons p ps ih => exact ih _ (seedPermission_nodup _ _ h)

/-- The permission-seeding fold is a no-op when every seeded name is
already stored. -/
theorem foldSeedPermission_of_all_mem (ps : List PermSpec) (st : DB)
    (h : ∀ p ∈ ps, p.name ∈ st.permissionNames) :
    ps.foldl seedPermission st = st := by
  induction ps with
  | nil => rfl
  | cons p ps ih =>
    rw [List.foldl_cons, seedPermission_of_mem st p (h p (by simp))]
    exact ih (fun q hq => h q (by simp [hq]))

/-- seedRole does not touch the permissions table. -/
theorem seedRole_permissions (st : DB) (rn : String) (pn : List String) :
    (seedRole st rn pn).permissions = st.permissions := by
  unfold seedRole
  split <;> rfl

/-- seedRole is a no-op when the role name already exists. -/
theorem seedRole_of_mem (st : DB) (rn : String) (pn : List String)
    (h : rn ∈ st.roleNames) : seedRole st rn pn = st := by
  unfold seedRole
  rw [if_pos ((any_role_name_iff st rn).mpr h)]

/-- seedRole never removes a stored role name. -/
theorem seedRole_name_mono (st : DB) (rn : String) (pn : List String) (n : String)
    (h : n ∈ st.roleNames) : n ∈ (seedRole st rn pn).roleNames := by
  unfold seedRole
  split
  · exact h
  · simp only [DB.roleNames, List.map_append] at h ⊢
    exact List.mem_append_left _ h

/-- After seedRole the seeded role name is stored. -/
theorem seedRole_name_self (st : DB) (rn : String) (pn : List String) :
    rn ∈ (seedRole st rn pn).roleNames := by
  unfold seedRole
  split
  · next hguard => exact (any_role_name_iff st rn).mp hguard
  · simp [DB.roleNames]

/-- seedRole preserves distinctness of the stored role names. -/
theorem seedRole_nodup (st : DB) (rn : String) (pn : List String)
    (h : st.roleNames.Nodup) : (seedRole st rn pn).roleNames.Nodup := by
  unfold seedRole
  split
  · exact h
  · next hguard =>
    have hnot : rn ∉ st.roleNames :=
      fun hm => hguard ((any_role_name_iff st rn).mpr hm)
    have heq : ∀ (links : List RolePermissionRow),
        ({ st with
            roles := st.roles ++
              [{ id := genID st.nextID, name := rn,
                 description := "Default " ++ rn ++ " role" }],
            nextID := st.nextID + 1,
            rolePermissions := st.rolePermissions ++ links } : DB).roleNames =
          st.roleNames ++ [rn] := by
      intro links
      simp [DB.roleNames]
    rw [heq]
    refine List.Nodup.append h (List.nodup_singleton _) ?_
    intro x hx1 hx2
    rw [List.mem_singleton] at hx2
    subst hx2
    exact hnot hx1

/-- The role-seeding fold does not touch the permissions table. -/
theorem foldSeedRole_permissions (rps : List (String × List String)) (st : DB) :
    (rps.foldl (fun s rp => seedRole s rp.fst rp.snd) st).permissions = st.permissions := by
  induction rps generalizing st with
  | nil => rfl
  | cons rp rps ih => rw [List.foldl_cons, ih, seedRole_permissions]

/-- The role-seeding fold never removes a stored role name. -/
theorem foldSeedRole_name_mono (rps : List (String × List String)) (st : DB) (n : String)
    (h : n ∈ st.roleNames) :
    n ∈ (rps.foldl (fun s rp => seedRole s rp.fst rp.snd) st).roleNames := by
  induction rps generalizing st with
  | nil => exact h
  | cons rp rps ih => exact ih _ (seedRole_name_mono _ _ _ _ h)

/-- After the role-seeding fold every seeded role name is stored. -/
theorem foldSeedRole_ensures (rps : List (String × List String)) (st : DB) :
    ∀ rp ∈ rps, rp.fst ∈ (rps.foldl (fun s rq => seedRole s rq.fst rq.snd) st).roleNames := by
  induction rps generalizing st with
  | nil => intro rp hrp; cases hrp
  | cons rq rps ih =>
    intro rp hrp
    rcases List.mem_cons.mp hrp with h | h
    · subst h
      exact foldSeedRole_name_mono rps _ _ (seedRole_name_self _ _ _)
    · exact ih _ rp h

/-- The role-seeding fold preserves distinctness of the stored role
names. -/
theorem foldSeedRole_nodup (rps : List (String × List String)) (st : DB)
    (h : st.roleNames.Nodup) :
    (rps.foldl (fun s rp => seedRole s rp.fst rp.snd) st).roleNames.Nodup := by
  induction rps generalizing st with
  | nil => exact h
  | cons rp rps ih => exact ih _ (seedRole_nodup _ _ _ h)

/-- The role-seeding fold is a no-op when every seeded role name is
already stored. -/
theorem foldSeedRole_of_all_mem (rps : List (String × List String)) (st : DB)
    (h : ∀ rp ∈ rps, rp.fst ∈ st.roleNames) :
    rps.foldl (fun s rp => seedRole s rp.fst rp.snd) st = st := by
  induction rps with
  | nil => rfl
  | cons rp rps ih =>
    rw [List.foldl_cons, seedRole_of_mem st rp.fst rp.snd (h rp (by simp))]
    exact ih (fun rq hq => h rq (by simp [hq]))

/-- Claim C7: `InitializeDefaultRoles` (the spec's seedDefaults) is
idempotent: from any starting state whose stored permission names and role
names are distinct (the storage uniqueness constraints), the second call
changes nothing, and after two calls exactly one row per canonical
permission name and per canonical role name is stored, with no duplicate
names; no error reaches the caller (every Go error branch wraps a storage
failure, absent in the store model). -/
theorem initDefaultRoles_idempotent (st : DB)
    (h : st.permissionNames.Nodup ∧ st.roleNames.Nodup) :
    DB.initDefaultRoles (DB.initDefaultRoles st) = DB.initDefaultRoles st ∧
    (∀ n ∈ defaultPermissions.map (fun p => p.name),
      (DB.initDefaultRoles (DB.initDefaultRoles st)).permissionNames.count n = 1) ∧
    (∀ n ∈ defaultRolePermissions.map (fun rp => rp.fst),
      (DB.initDefaultRoles (DB.initDefaultRoles st)).roleNames.count n = 1) ∧
    (DB.initDefaultRoles (DB.initDefaultRoles st)).permissionNames.Nodup ∧
    (DB.initDefaultRoles (DB.initDefaultRoles st)).roleNames.Nodup := by
  obtain ⟨hp, hr⟩ := h
  have hperm_eq : ∀ s : DB, (DB.initDefaultRoles s).permissionNames =
      (defaultPermissions.foldl seedPermission s).permissionNames := by
    intro s
    show (defaultRolePermissions.foldl (fun s rp => seedRole s rp.fst rp.snd)
      (defaultPermissions.foldl seedPermission s)).permissionNames = _
    simp only [DB.permissionNames, foldSeedRole_permissions]
  have hrole_eq : ∀ s : DB,
      (defaultPermissions.foldl seedPermission s).roleNames = s.roleNames := by
    intro s
    simp only [DB.roleNames, foldSeedPermission_roles]
  have hens_perm : ∀ p ∈ defaultPermissions,
      p.name ∈ (DB.initDefaultRoles st).permissionNames := by
    intro p hmem
    rw [hperm_eq]
    exact foldSeedPermission_ensures defaultPermissions st p hmem
  have hens_role : ∀ rp ∈ defaultRolePermissions,
      rp.fst ∈ (DB.initDefaultRoles st).roleNames := by
    intro rp hmem
    exact foldSeedRole_ensures defaultRolePermissions
      (defaultPermissions.foldl seedPermission st) rp hmem
  have hnodup_perm : (DB.initDefaultRoles st).permissionNames.Nodup := by
    rw [hperm_eq]
    exact foldSeedPermission_nodup defaultPermissions st hp
  have hnodup_role : (DB.initDefaultRoles st).roleNames.Nodup := by
    refine foldSeedRole_nodup defaultRolePermissions
      (defaultPermissions.foldl seedPermission st) ?_
    rw [hrole_eq]
    exact hr
  have hidem : DB.initDefaultRoles (DB.initDefaultRoles st) = DB.initDefaultRoles st := by
    show defaultRolePermissions.foldl (fun s rp => seedRole s rp.fst rp.snd)
      (defaultPermissions.foldl seedPermission (DB.initDefaultRoles st)) =
      DB.initDefaultRoles st
    rw [foldSeedPermission_of_all_mem defaultPermissions (DB.initDefaultRoles st) hens_perm]
    exact foldSeedRole_of_all_mem defaultRolePermissions (DB.initDefaultRoles st) hens_role
  refine ⟨hidem, ?_, ?_, ?_, ?_⟩
  · intro n hn
    rw [hidem]
    obtain ⟨p, hpmem, rfl⟩ := List.mem_map.mp hn
    exact List.count_eq_one_of_mem hnodup_perm (hens_perm p hpmem)
  · intro n hn
    rw [hidem]
    obtain ⟨rp, hrpmem, rfl⟩ := List.mem_map.mp hn
    exact List.count_eq_one_of_mem hnodup_role (hens_role rp hrpmem)
  · rw [hidem]
    exact hnodup_perm
  · rw [hidem]
    exact hnodup_role

/-- Concrete instantiation of `initDefaultRoles_idempotent` at the empty
store: the second call is a no-op and the canonical names admin and
patients:read are each stored exactly once. -/
theorem initDefaultRoles_idempotent_witness :
    DB.initDefaultRoles (DB.initDefaultRoles (DB.mk [] [] [] [] [] 0)) =
      DB.initDefaultRoles (DB.mk [] [] [] [] [] 0) ∧
    (DB.initDefaultRoles (DB.initDefaultRoles
      (DB.mk [] [] [] [] [] 0))).permissionNames.count "patients:read" = 1 ∧
    (DB.initDefaultRoles (DB.initDefaultRoles
      (DB.mk [] [] [] [] [] 0))).roleNames.count "admin" = 1 :=
  ⟨(initDefaultRoles_idempotent (DB.mk [] [] [] [] [] 0) ⟨by decide, by decide⟩).1,
   (initDefaultRoles_idempotent (DB.mk [] [] [] [] [] 0)
      ⟨by decide, by decide⟩).2.1 "patients:read" (by decide),
   (initDefaultRoles_idempotent (DB.mk [] [] [] [] [] 0)
      ⟨by decide, by decide⟩).2.2.1 "admin" (by decide)⟩

end HealthHub

